import Mathlib

/-!
Verification development for the rust-dms-cdc-operator repository.

The definitions below are a shallow embedding of the S3 artifact
locator of the program (src/s3/s3_operator.rs), the Postgres value codec
(src/postgres/postgres_row_struct.rs, src/postgres/postgres_geometry_type.rs)
and the target SQL operator (src/postgres/postgres_operator_impl.rs,
src/postgres/table_query.rs).  Machine strings are Lean String values,
timestamps are integers, and fallible or panicking code paths return Option.
-/

namespace DmsCdc

/-- The single-quote character (code 39), written via Char.ofNat so that no
apostrophe appears in the source text of this file. -/
def squote : Char := Char.ofNat 39

/-- The double-quote character (code 34). -/
def dquote : Char := Char.ofNat 34

/-- The full-stop character (code 46), used as the decimal point. -/
def dotChar : Char := Char.ofNat 46

/-- Whether the pattern is a character-for-character prefix of the list;
mirrors Rust str pattern matching at the head position. -/
def startsWithPat : List Char → List Char → Bool
| [], _ => true
| _ :: _, [] => false
| p :: ps, c :: cs => p == c && startsWithPat ps cs

/-- Whether the pattern occurs contiguously anywhere in the list; this models
the Rust str contains method used with a string pattern. -/
def hasSubstr (pat : List Char) : List Char → Bool
| [] => pat.isEmpty
| c :: cs => startsWithPat pat (c :: cs) || hasSubstr pat cs

/-- Models file.contains("LOAD") from src/s3/s3_operator.rs. -/
def hasLOAD (s : String) : Bool := hasSubstr "LOAD".data s.data

/-- Embeds the S3ParquetFile struct of src/s3/s3_operator.rs (lines 24-27). -/
structure S3ParquetFile where
  file_name : String
deriving DecidableEq, Repr

/-- Embeds S3ParquetFile::is_load_file (src/s3/s3_operator.rs lines 36-38):
the key contains the token LOAD. -/
def S3ParquetFile.is_load_file (f : S3ParquetFile) : Bool := hasLOAD f.file_name

/-- One object of an S3 listing page: its key together with the optional
last-modified time carried by the AWS SDK object record.  Timestamps are
embedded as integers. -/
structure S3Object where
  key : String
  last_modified : Option Int
deriving DecidableEq, Repr

/-- The per-object inclusion test of get_files_from_s3_based_on_date
(src/s3/s3_operator.rs lines 203-221): an object with no last-modified time
is skipped; otherwise with a stop date the object is kept when
(last_modified greater than start and less than stop) or the key contains
LOAD, and without a stop date when last_modified is greater than start or
the key contains LOAD. -/
def includeObject (start : Int) (stop : Option Int) (o : S3Object) : Bool :=
  match o.last_modified with
  | none => false
  | some lm =>
    match stop with
    | some st => (decide (start < lm) && decide (lm < st)) || hasLOAD o.key
    | none => decide (start < lm) || hasLOAD o.key

/-- Embeds the collection loop of get_files_from_s3_based_on_date
(src/s3/s3_operator.rs lines 167-234): the concatenation of all listing
pages is given as one list of objects, each kept key becomes an
S3ParquetFile. -/
def get_files_from_s3_based_on_date (objects : List S3Object) (start : Int)
    (stop : Option Int) : List S3ParquetFile :=
  (objects.filter (includeObject start stop)).map (fun o => ⟨o.key⟩)

/-- Embeds Rust Vec::rotate_right for a rotation count at most the length:
the last k elements move to the front. -/
def rotate_right (l : List α) (k : Nat) : List α :=
  l.drop (l.length - k) ++ l.take (l.length - k)

/-- Embeds the order transform of get_list_of_parquet_files_from_s3 in
DateAware mode (src/s3/s3_operator.rs lines 153-157): count the load files
in the collected listing and rotate the list right by that count. -/
def rotate_load_files_first (files : List S3ParquetFile) : List S3ParquetFile :=
  rotate_right files ((files.filter (fun s => s.is_load_file)).length)

/-- The DateAware branch of get_list_of_parquet_files_from_s3
(src/s3/s3_operator.rs lines 110-158) after prefix construction: collect the
dated listing, then rotate the load files to the front. -/
def get_list_of_parquet_files_date_aware (objects : List S3Object)
    (start : Int) (stop : Option Int) : List S3ParquetFile :=
  rotate_load_files_first (get_files_from_s3_based_on_date objects start stop)

/-- Modelled from the spec: the FullLoadOnly branch of
get_list_of_parquet_files_from_s3 is absent from the sources under src
(its caller in src/cdc/cdc_operator.rs lines 133-140 constructs the
LoadParquetFilesPayload FullLoadOnly variant, but the s3_operator.rs file
present defines only the DateAware and AbsolutePath variants).  Per the
spec, FullLoadOnly performs the same prefix construction and listing as
DateAware and retains only Load artifacts, that is exactly the listed keys
containing the token LOAD. -/
def get_list_of_parquet_files_full_load_only (objects : List S3Object) :
    List S3ParquetFile :=
  (objects.map (fun o => S3ParquetFile.mk o.key)).filter
    (fun f => f.is_load_file)

/-- Decidable check of the Replay Plan order invariant: every Load artifact
index is strictly less than every Change artifact index, that is after
dropping the leading Load entries no Load entry remains. -/
def loads_before_changes (l : List S3ParquetFile) : Bool :=
  !((l.dropWhile (fun f => f.is_load_file)).any (fun f => f.is_load_file))

theorem filter_eq_nil_of_all_false {α : Type} (p : α → Bool) (l : List α)
    (h : ∀ x ∈ l, p x = false) : l.filter p = [] := by
  induction l with
  | nil => rfl
  | cons a t ih =>
    simp only [List.filter_cons, h a (by simp)]
    exact ih (fun x hx => h x (by simp [hx]))

theorem filter_eq_self_of_all_true {α : Type} (p : α → Bool) (l : List α)
    (h : ∀ x ∈ l, p x = true) : l.filter p = l := by
  induction l with
  | nil => rfl
  | cons a t ih =>
    simp only [List.filter_cons, h a (by simp), if_true]
    rw [ih (fun x hx => h x (by simp [hx]))]

theorem dropWhile_append_of_all_true {α : Type} (p : α → Bool) (l c : List α)
    (h : ∀ x ∈ l, p x = true) : (l ++ c).dropWhile p = c.dropWhile p := by
  induction l with
  | nil => rfl
  | cons a t ih =>
    simp only [List.cons_append, List.dropWhile_cons, h a (by simp), if_true]
    exact ih (fun x hx => h x (by simp [hx]))

theorem any_eq_false_of_all_false {α : Type} (p : α → Bool) (l : List α)
    (h : ∀ x ∈ l, p x = false) : l.any p = false := by
  induction l with
  | nil => rfl
  | cons a t ih =>
    simp only [List.any_cons, h a (by simp), Bool.false_or]
    exact ih (fun x hx => h x (by simp [hx]))

/-- C1 (amended): the rotate-right-by-Load-count transform of the DateAware
locator yields all Load artifacts strictly before all Change artifacts, with
the relative order inside each class preserved, provided the collected
listing places every Load entry after every Change entry (the listing is a
block of Change entries followed by a block of Load entries, as the
lexicographic S3 listing produces).  The result is then exactly the Load
block followed by the Change block. -/
theorem c1_rotate_load_first_of_suffix (c l : List S3ParquetFile)
    (hc : ∀ x ∈ c, x.is_load_file = false)
    (hl : ∀ x ∈ l, x.is_load_file = true) :
    rotate_load_files_first (c ++ l) = l ++ c ∧
    loads_before_changes (rotate_load_files_first (c ++ l)) = true := by
  have hfilter : (c ++ l).filter (fun s => s.is_load_file) = l := by
    rw [List.filter_append, filter_eq_nil_of_all_false _ _ hc,
      filter_eq_self_of_all_true _ _ hl, List.nil_append]
  have hrot : rotate_load_files_first (c ++ l) = l ++ c := by
    unfold rotate_load_files_first rotate_right
    rw [hfilter]
    have hlen : (c ++ l).length - l.length = c.length := by
      simp [List.length_append]
    rw [hlen, List.drop_left, List.take_left]
  refine ⟨hrot, ?_⟩
  rw [hrot]
  unfold loads_before_changes
  rw [dropWhile_append_of_all_true _ _ _ hl]
  have hsub : ∀ x ∈ c.dropWhile (fun f => f.is_load_file), x.is_load_file = false :=
    fun x hx => hc x ((List.dropWhile_sublist _).mem hx)
  rw [any_eq_false_of_all_false _ _ hsub]
  rfl

/-- Witness for the amended C1 theorem at a concrete listing: one Change
artifact followed by one Load artifact. -/
theorem c1_rotate_load_first_of_suffix_witness :
    rotate_load_files_first ([S3ParquetFile.mk "20231001-000000000.parquet"] ++
        [S3ParquetFile.mk "LOAD00000001.parquet"]) =
      [S3ParquetFile.mk "LOAD00000001.parquet"] ++
        [S3ParquetFile.mk "20231001-000000000.parquet"] ∧
    loads_before_changes (rotate_load_files_first
      ([S3ParquetFile.mk "20231001-000000000.parquet"] ++
        [S3ParquetFile.mk "LOAD00000001.parquet"])) = true :=
  c1_rotate_load_first_of_suffix _ _ (by decide) (by decide)

/-- C1 (counterexample): for an arbitrary interleaving of the collected
listing the claimed invariant fails.  When the listing is a Load entry
followed by a Change entry, rotating right by the Load count (one) puts the
Change entry first and the Load entry last, so the index of the Load
artifact is not less than the index of the Change artifact. -/
theorem c1_counterexample :
    loads_before_changes (get_list_of_parquet_files_date_aware
      [S3Object.mk "LOAD00000001.parquet" (some 5),
       S3Object.mk "20231001-000000000.parquet" (some 6)] 0 none) = false := by
  decide

/-- Characterization of the per-object inclusion test of the dated listing. -/
theorem includeObject_eq_true_iff (start : Int) (stop : Option Int)
    (o : S3Object) :
    includeObject start stop o = true ↔
    ∃ lm, o.last_modified = some lm ∧
      ((start < lm ∧ (stop = none ∨ ∃ st, stop = some st ∧ lm < st)) ∨
        hasLOAD o.key = true) := by
  unfold includeObject
  cases hlm : o.last_modified with
  | none => simp
  | some lm =>
    cases stop with
    | none =>
      simp only [Bool.or_eq_true, decide_eq_true_eq, Option.some.injEq]
      constructor
      · rintro (h | h)
        · exact ⟨lm, rfl, Or.inl ⟨h, by simp⟩⟩
        · exact ⟨lm, rfl, Or.inr h⟩
      · rintro ⟨lm2, hlm2, (⟨h1, _⟩ | h2)⟩
        · cases hlm2; exact Or.inl h1
        · exact Or.inr h2
    | some st =>
      simp only [Bool.or_eq_true, Bool.and_eq_true, decide_eq_true_eq,
        Option.some.injEq]
      constructor
      · rintro (⟨h1, h2⟩ | h)
        · exact ⟨lm, rfl, Or.inl ⟨h1, Or.inr ⟨st, rfl, h2⟩⟩⟩
        · exact ⟨lm, rfl, Or.inr h⟩
      · rintro ⟨lm2, hlm2, (⟨h1, (hno | ⟨st2, hst2, h2⟩)⟩ | h)⟩
        · exact absurd hno (by simp)
        · cases hlm2; cases hst2; exact Or.inl ⟨h1, h2⟩
        · exact Or.inr h

/-- C5 (amended): a key appears in the result of the dated listing exactly
when some listed object has that key, bears a last-modified time, and
either falls strictly inside the date window (strictly after the start and,
when a stop is supplied, strictly before it) or has a key containing the
token LOAD.  In particular objects without a last-modified time are never
included, even Load ones. -/
theorem c5_date_filter_membership (objs : List S3Object) (start : Int)
    (stop : Option Int) (k : String) :
    (S3ParquetFile.mk k ∈ get_files_from_s3_based_on_date objs start stop) ↔
    ∃ o ∈ objs, o.key = k ∧ ∃ lm, o.last_modified = some lm ∧
      ((start < lm ∧ (stop = none ∨ ∃ st, stop = some st ∧ lm < st)) ∨
        hasLOAD o.key = true) := by
  unfold get_files_from_s3_based_on_date
  simp only [List.mem_map, List.mem_filter, S3ParquetFile.mk.injEq]
  constructor
  · rintro ⟨o, ⟨ho, hinc⟩, hkey⟩
    rcases (includeObject_eq_true_iff start stop o).mp hinc with ⟨lm, h1, h2⟩
    exact ⟨o, ho, hkey, lm, h1, h2⟩
  · rintro ⟨o, ho, hkey, lm, h1, h2⟩
    refine ⟨o, ⟨ho, ?_⟩, hkey⟩
    exact (includeObject_eq_true_iff start stop o).mpr ⟨lm, h1, h2⟩

/-- C5 (counterexample): an object whose key contains the token LOAD but
which bears no last-modified time is excluded by the code, although the
claim as stated requires it to be included. -/
theorem c5_counterexample :
    get_files_from_s3_based_on_date [S3Object.mk "LOAD00000001.parquet" none]
        0 none = [] ∧
    hasLOAD "LOAD00000001.parquet" = true :=
  ⟨rfl, by decide⟩

/-- C6: the FullLoadOnly locator result contains exactly the listed keys
that contain the token LOAD: every returned artifact is a Load artifact and
every listed Load artifact is retained. -/
theorem c6_full_load_only_membership (objects : List S3Object)
    (f : S3ParquetFile) :
    f ∈ get_list_of_parquet_files_full_load_only objects ↔
    (f ∈ objects.map (fun o => S3ParquetFile.mk o.key) ∧
      f.is_load_file = true) := by
  unfold get_list_of_parquet_files_full_load_only
  simp [List.mem_filter]

/-- Character-level model of the Rust replace of each single-quote character
by two single-quote characters, as performed by
RowStruct::process_string_value (src/postgres/postgres_row_struct.rs
line 38). -/
def escapeChars : List Char → List Char
| [] => []
| c :: rest => if c = squote then squote :: squote :: escapeChars rest
               else c :: escapeChars rest

/-- Embeds RowStruct::process_string_value
(src/postgres/postgres_row_struct.rs lines 37-39): wrap the value in single
quotes and double every embedded single quote. -/
def process_string_value (s : String) : String :=
  String.mk (squote :: escapeChars s.data ++ [squote])

/-- Collapses every doubled single quote back to a single one; the inverse
direction of the SQL string escaping, taken from the wording of the spec. -/
def collapseQuotes : List Char → List Char
| [] => []
| [c] => [c]
| a :: b :: rest =>
  if a = squote ∧ b = squote then squote :: collapseQuotes rest
  else a :: collapseQuotes (b :: rest)

/-- Unescapes a rendered SQL string literal: strip the outer quotes and
collapse every doubled single quote, per the wording of the spec. -/
def unescape_sql_string (r : String) : String :=
  String.mk (collapseQuotes ((r.data.drop 1).dropLast))

theorem escapeChars_ne_nil (c : Char) (l : List Char) :
    escapeChars (c :: l) ≠ [] := by
  unfold escapeChars
  split <;> simp

theorem collapseQuotes_escapeChars (l : List Char) :
    collapseQuotes (escapeChars l) = l := by
  induction l with
  | nil => rfl
  | cons c t ih =>
    by_cases hc : c = squote
    · subst hc
      show collapseQuotes (escapeChars (squote :: t)) = squote :: t
      rw [show escapeChars (squote :: t) =
            squote :: squote :: escapeChars t by simp [escapeChars]]
      rw [show collapseQuotes (squote :: squote :: escapeChars t) =
            squote :: collapseQuotes (escapeChars t) by
          simp [collapseQuotes]]
      rw [ih]
    · rw [show escapeChars (c :: t) = c :: escapeChars t by
          simp [escapeChars, hc]]
      cases he : escapeChars t with
      | nil =>
        cases t with
        | nil => simp [collapseQuotes]
        | cons x xs => exact absurd he (escapeChars_ne_nil x xs)
      | cons e es =>
        rw [show collapseQuotes (c :: e :: es) =
              c :: collapseQuotes (e :: es) by
            simp [collapseQuotes, hc]]
        rw [← he, ih]

/-- C7: the value codec renders a string cell by wrapping it in single
quotes with every embedded single quote doubled, and unescaping the
rendered literal recovers the original string exactly, including embedded
single quotes. -/
theorem c7_string_roundtrip (x : String) :
    unescape_sql_string (process_string_value x) = x := by
  cases x with
  | mk l =>
    unfold process_string_value unescape_sql_string
    have h : collapseQuotes
        ((List.drop 1 (squote :: (escapeChars l ++ [squote]))).dropLast) = l := by
      rw [show List.drop 1 (squote :: (escapeChars l ++ [squote])) =
            escapeChars l ++ [squote] from rfl]
      rw [List.dropLast_concat, collapseQuotes_escapeChars]
    exact congrArg String.mk h

/-- Embeds the PostgresGeometryType struct
(src/postgres/postgres_geometry_type.rs lines 1-3). -/
structure PostgresGeometryType where
  value_type : String
deriving DecidableEq, Repr

/-- Whether the first character of a string is a double quote; models the
Rust starts_with check with a double-quote character pattern. -/
def headIsDq (s : String) : Bool :=
  match s.data with
  | [] => false
  | c :: _ => c == dquote

/-- Whether the last character of a string is a double quote; models the
Rust ends_with check with a double-quote character pattern. -/
def lastIsDq (s : String) : Bool :=
  match s.data.getLast? with
  | some c => c == dquote
  | none => false

/-- Models Rust str::trim at the character level: strip leading and
trailing whitespace characters. -/
def strTrim (s : String) : String :=
  String.mk
    ((((s.data.dropWhile Char.isWhitespace).reverse).dropWhile
      Char.isWhitespace).reverse)

/-- The quote-trimming step of PostgresGeometryType::new
(src/postgres/postgres_geometry_type.rs lines 17-25): when the (already
truncated) value starts and ends with a double quote, strip the leading
double quote and then the trailing one; when the trailing strip fails the
original value is kept. -/
def sanitizeValueType (vt : String) : String :=
  if headIsDq vt ∧ lastIsDq vt then
    let s1 := String.mk (vt.data.drop 1)
    if lastIsDq s1 then String.mk s1.data.dropLast else vt
  else vt

/-- Embeds PostgresGeometryType::new
(src/postgres/postgres_geometry_type.rs lines 11-30): keep only the first
30 characters of the input, then trim surrounding double quotes. -/
def PostgresGeometryType.new (input : String) : PostgresGeometryType :=
  ⟨sanitizeValueType (String.mk (input.data.take 30))⟩

/-- Embeds PostgresGeometryType::is_geometry_type
(src/postgres/postgres_geometry_type.rs lines 32-37): the substring before
the first opening parenthesis, when one exists, must belong to the accepted
keyword set, which contains only MULTIPOLYGON. -/
def PostgresGeometryType.is_geometry_type (g : PostgresGeometryType) : Bool :=
  if g.value_type.data.contains (Char.ofNat 40) then
    decide (g.value_type.data.takeWhile (fun c => c ≠ Char.ofNat 40) =
      "MULTIPOLYGON".data)
  else false

/-- Embeds PostgresGeometryType::format_value
(src/postgres/postgres_geometry_type.rs lines 39-51): when the prefix of
the stored value type before the first opening parenthesis is MULTIPOLYGON,
wrap the raw value in ST_GeomFromText with SRID 4326; otherwise return the
stored value type. -/
def PostgresGeometryType.format_value (g : PostgresGeometryType)
    (value : String) : String :=
  if g.value_type.data.takeWhile (fun c => c ≠ Char.ofNat 40) =
      "MULTIPOLYGON".data then
    "ST_GeomFromText(" ++ String.mk [squote] ++ value ++ String.mk [squote] ++
      ", 4326)"
  else g.value_type

/-- C9: the geometry classification of a string depends only on its first
30 characters: two inputs agreeing on their first 30 characters receive the
same decision. -/
theorem c9_geometry_locality (s1 s2 : String)
    (h : s1.data.take 30 = s2.data.take 30) :
    (PostgresGeometryType.new s1).is_geometry_type =
      (PostgresGeometryType.new s2).is_geometry_type := by
  unfold PostgresGeometryType.new
  rw [h]

/-- Witness for C9 at two concrete strings longer than 30 characters that
agree on their first 30 characters and differ afterwards. -/
theorem c9_geometry_locality_witness :
    (PostgresGeometryType.new
      "MULTIPOLYGON(((0 0,1 0,1 1,0 1,0 0)))").is_geometry_type =
    (PostgresGeometryType.new
      "MULTIPOLYGON(((0 0,1 0,1 1,0 1,0 0)))XYZ").is_geometry_type :=
  c9_geometry_locality _ _ (by decide)

/-- Decimal digits of a natural number, least significant first, computed
with explicit fuel so that concrete values reduce in the kernel. -/
def digitsGo : Nat → Nat → List Char
| 0, _ => []
| fuel + 1, n =>
  if n < 10 then [Nat.digitChar n]
  else Nat.digitChar (n % 10) :: digitsGo fuel (n / 10)

/-- Standard decimal representation of a natural number, most significant
digit first. -/
def natReprChars (n : Nat) : List Char := (digitsGo (n + 1) n).reverse

/-- Left-pads a digit list with zeros up to the given width. -/
def padZeros (s : Nat) (l : List Char) : List Char :=
  List.replicate (s - l.length) (Char.ofNat 48) ++ l

/-- Model of the Display rendering of a rust_decimal Decimal built from an
i64 mantissa and a u32 scale: optional minus sign, the integer part, and
for a positive scale a decimal point followed by exactly scale fractional
digits. -/
def displayChars (m : Int) (s : Nat) : List Char :=
  (if m < 0 then [Char.ofNat 45] else []) ++
  (if s = 0 then natReprChars m.natAbs
   else natReprChars (m.natAbs / 10 ^ s) ++
     dotChar :: padZeros s (natReprChars (m.natAbs % 10 ^ s)))

/-- Embeds RowStruct::process_decimal_value
(src/postgres/postgres_row_struct.rs lines 41-47): convert the i128
mantissa to i64, failing outside the i64 range; build a Decimal with the
given scale, failing when the scale exceeds the rust_decimal maximum of 28;
render it in fixed point and wrap the text in single quotes. -/
def process_decimal_value (m : Int) (s : Nat) : Option String :=
  if m < -(2 ^ 63) then none
  else if (2 : Int) ^ 63 ≤ m then none
  else if 28 < s then none
  else some (String.mk (squote :: displayChars m s ++ [squote]))

/-- Length of the run of characters after the last decimal point, that is
the number of fractional digits of a rendered fixed-point literal. -/
def afterLastDotLen (l : List Char) : Nat :=
  (l.reverse.takeWhile (fun c => decide (c ≠ dotChar))).length

theorem takeWhile_append_stop (p : Char → Bool) (xs ys : List Char) (y : Char)
    (hxs : ∀ x ∈ xs, p x = true) (hy : p y = false) :
    (xs ++ y :: ys).takeWhile p = xs := by
  induction xs with
  | nil => simp [List.takeWhile_cons, hy]
  | cons a t ih =>
    simp only [List.cons_append, List.takeWhile_cons, hxs a (by simp), if_true]
    rw [ih (fun x hx => hxs x (by simp [hx]))]

theorem digitsGo_mem (fuel : Nat) :
    ∀ (n : Nat) (c : Char), c ∈ digitsGo fuel n →
      ∃ d, d < 10 ∧ c = Nat.digitChar d := by
  induction fuel with
  | zero => intro n c h; simp [digitsGo] at h
  | succ fuel ih =>
    intro n c h
    unfold digitsGo at h
    split at h
    · next hn =>
      rcases List.mem_singleton.mp h with rfl
      exact ⟨n, hn, rfl⟩
    · rcases List.mem_cons.mp h with rfl | h2
      · exact ⟨n % 10, Nat.mod_lt _ (by norm_num), rfl⟩
      · exact ih _ _ h2

theorem digitsGo_length_le (fuel : Nat) :
    ∀ (n s : Nat), n < fuel → 0 < s → n < 10 ^ s →
      (digitsGo fuel n).length ≤ s := by
  induction fuel with
  | zero => intro n s hfuel _ _; omega
  | succ fuel ih =>
    intro n s hfuel hs hn
    unfold digitsGo
    split
    · simpa using hs
    · next hge =>
      push_neg at hge
      have hdiv : n / 10 < n := Nat.div_lt_self (by omega) (by norm_num)
      have hs2 : 2 ≤ s := by
        by_contra hcon
        push_neg at hcon
        interval_cases s
        simp only [pow_one] at hn
        omega
      have hpow : 10 ^ (s - 1) * 10 = 10 ^ s := by
        rw [← pow_succ]
        congr 1
        omega
      have h2 : n / 10 < 10 ^ (s - 1) :=
        (Nat.div_lt_iff_lt_mul (by norm_num : 0 < 10)).mpr (by omega)
      have := ih (n / 10) (s - 1) (by omega) (by omega) h2
      simp only [List.length_cons]
      omega

theorem digitChar_ne_dot (d : Nat) (h : d < 10) : Nat.digitChar d ≠ dotChar := by
  interval_cases d <;> decide

theorem padZeros_no_dot (s n : Nat) :
    ∀ c ∈ padZeros s (natReprChars n), c ≠ dotChar := by
  intro c hc
  unfold padZeros at hc
  rcases List.mem_append.mp hc with h | h
  · rw [List.eq_of_mem_replicate h]
    decide
  · unfold natReprChars at h
    rcases digitsGo_mem _ _ _ (List.mem_reverse.mp h) with ⟨d, hd, rfl⟩
    exact digitChar_ne_dot d hd

theorem afterLastDotLen_of_shape (sign ir pad : List Char)
    (hpad : ∀ c ∈ pad, c ≠ dotChar) :
    afterLastDotLen (sign ++ (ir ++ dotChar :: pad)) = pad.length := by
  unfold afterLastDotLen
  rw [List.reverse_append, List.reverse_append, List.reverse_cons,
    List.append_assoc, List.append_assoc]
  rw [show [dotChar] ++ (ir.reverse ++ sign.reverse) =
        dotChar :: (ir.reverse ++ sign.reverse) from rfl]
  rw [takeWhile_append_stop _ _ _ _
    (fun x hx => by
      simp only [decide_eq_true_eq]
      exact hpad x (List.mem_reverse.mp hx))
    (by simp)]
  exact List.length_reverse _

/-- C8 (amended): for every decimal cell whose i128 mantissa lies within the
i64 range and whose positive scale is at most the rust_decimal maximum of
28, the codec succeeds and produces a single-quoted fixed-point literal
with exactly scale fractional digits.  Mantissas outside the i64 range make
the codec fail instead of rendering. -/
theorem c8_decimal_fixed_point (m : Int) (s : Nat)
    (h1 : -(2 ^ 63) ≤ m) (h2 : m < 2 ^ 63) (h3 : s ≤ 28) (h4 : 0 < s) :
    ∃ body, process_decimal_value m s =
        some (String.mk (squote :: body ++ [squote])) ∧
      afterLastDotLen body = s := by
  refine ⟨displayChars m s, ?_, ?_⟩
  · unfold process_decimal_value
    rw [if_neg (by omega), if_neg (by omega), if_neg (by omega)]
  · unfold displayChars
    have hs0 : ¬s = 0 := by omega
    rw [if_neg hs0]
    rw [afterLastDotLen_of_shape _ _ _ (padZeros_no_dot s _)]
    unfold padZeros
    have hlt : m.natAbs % 10 ^ s < 10 ^ s :=
      Nat.mod_lt _ (Nat.pos_pow_of_pos s (by norm_num))
    have hlen : (natReprChars (m.natAbs % 10 ^ s)).length ≤ s := by
      unfold natReprChars
      rw [List.length_reverse]
      exact digitsGo_length_le _ _ _ (Nat.lt_succ_self _) h4 hlt
    simp only [List.length_append, List.length_replicate]
    omega

/-- Witness for the amended C8 theorem at the concrete mantissa -12345 and
scale 2, rendering as the quoted literal -123.45. -/
theorem c8_decimal_fixed_point_witness :
    ∃ body, process_decimal_value (-12345) 2 =
        some (String.mk (squote :: body ++ [squote])) ∧
      afterLastDotLen body = 2 :=
  c8_decimal_fixed_point (-12345) 2 (by norm_num) (by norm_num)
    (by norm_num) (by norm_num)

/-- C8 (counterexample): the codec is not total over the full i128 mantissa
range: at the mantissa 2 to the 63rd power, which exceeds the i64 maximum,
the i64 conversion fails and the codec panics instead of producing a
literal. -/
theorem c8_counterexample : process_decimal_value (2 ^ 63) 2 = none := by
  unfold process_decimal_value
  rw [if_neg (by norm_num), if_pos (by norm_num)]

/-- Subset of the polars AnyValue variants that the claims touch: strings,
64-bit integers, decimals with a scale, booleans and null.  The date,
datetime, binary and float variants of the source are not embedded because
no claim under consideration depends on them. -/
inductive AnyValue where
| str (s : String)
| int64 (n : Int)
| decimal (m : Int) (scale : Nat)
| boolean (b : Bool)
| null
deriving DecidableEq, Repr

/-- The polars Display rendering of an AnyValue, used by the to_string
calls of the upsert loop: strings are shown inside double quotes, integers
plainly, decimals in fixed point, booleans as true or false, null as null. -/
def anyValueToString : AnyValue → String
| .str s => String.mk (dquote :: s.data ++ [dquote])
| .int64 n => toString n
| .decimal m s => String.mk (displayChars m s)
| .boolean b => if b then "true" else "false"
| .null => "null"

/-- Embeds the RowStruct enum of src/postgres/postgres_row_struct.rs
(lines 5-12), restricted to the embedded AnyValue variants; the FromFloat
and FromDate variants are not needed by any claim. -/
inductive RowStruct where
| FromString (s : String)
| FromDecimal (m : Int) (scale : Nat)
| FromOther (v : AnyValue)
deriving DecidableEq, Repr

/-- Embeds RowStruct::new (src/postgres/postgres_row_struct.rs
lines 15-23). -/
def RowStruct.new (v : AnyValue) : RowStruct :=
  match v with
  | .str s => .FromString s
  | .decimal m sc => .FromDecimal m sc
  | v => .FromOther v

/-- Embeds RowStruct::displayed (src/postgres/postgres_row_struct.rs
lines 25-35); the decimal arm can panic, hence the Option. -/
def RowStruct.displayed : RowStruct → Option String
| .FromString s => some (process_string_value s)
| .FromDecimal m sc => process_decimal_value m sc
| .FromOther v => some (anyValueToString v)

/-- Embeds preprocess_value (src/postgres/postgres_operator_impl.rs
lines 484-506), the cell renderer of the bulk-insert path: a string cell is
trimmed and classified by PostgresGeometryType; geometry values are wrapped
by format_value, other strings and all remaining variants go through
RowStruct. -/
def preprocess_value (v : AnyValue) : Option String :=
  match v with
  | .str s =>
    let t := strTrim s
    let g := PostgresGeometryType.new t
    if g.is_geometry_type then some (g.format_value t)
    else (RowStruct.FromString s).displayed
  | v => (RowStruct.new v).displayed

/-- Embeds the CDC upsert row rendering
(src/postgres/postgres_operator_impl.rs lines 380-387): skip the first two
cells (the Op and ingestion-timestamp metadata) and render each remaining
cell through RowStruct, never through the geometry-aware preprocess_value. -/
def upsert_row_values (row : List AnyValue) : List (Option String) :=
  (row.drop 2).map (fun v => (RowStruct.new v).displayed)

/-- C2 (amended): geometry wrapping happens in the bulk-insert (Load) path:
for every string cell whose trimmed text is classified as geometry,
preprocess_value renders it as ST_GeomFromText of the trimmed text with
SRID 4326.  Rows applied via upsert_dataframe_in_target_db instead render
every string cell as a single-quoted escaped literal. -/
theorem c2_geometry_rendering :
    (∀ s : String,
      (PostgresGeometryType.new (strTrim s)).is_geometry_type = true →
      preprocess_value (.str s) =
        some ("ST_GeomFromText(" ++ String.mk [squote] ++ strTrim s ++
          String.mk [squote] ++ ", 4326)")) ∧
    (∀ s : String,
      (RowStruct.new (.str s)).displayed = some (process_string_value s)) := by
  constructor
  · intro s h
    have hv : preprocess_value (.str s) =
        if (PostgresGeometryType.new (strTrim s)).is_geometry_type then
          some ((PostgresGeometryType.new (strTrim s)).format_value (strTrim s))
        else (RowStruct.FromString s).displayed := rfl
    rw [hv, if_pos h]
    unfold PostgresGeometryType.is_geometry_type at h
    split at h
    · have hpre := of_decide_eq_true h
      unfold PostgresGeometryType.format_value
      rw [if_pos hpre]
    · exact absurd h (by simp)
  · intro s
    rfl

/-- Witness for the amended C2 theorem at the concrete MULTIPOLYGON value
of the spec scenario S4, rendered through the bulk-insert path. -/
theorem c2_geometry_rendering_witness :
    preprocess_value (AnyValue.str "MULTIPOLYGON(((0 0,1 0,1 1,0 1,0 0)))") =
      some ("ST_GeomFromText(" ++ String.mk [squote] ++
        strTrim "MULTIPOLYGON(((0 0,1 0,1 1,0 1,0 0)))" ++
        String.mk [squote] ++ ", 4326)") :=
  c2_geometry_rendering.1 _ (by decide)

/-- C2 (counterexample): a CDC row carrying the MULTIPOLYGON value of the
spec scenario, applied through the upsert path, renders the shape cell as a
plain single-quoted literal and not as ST_GeomFromText, although the
geometry classifier does accept the value. -/
theorem c2_counterexample :
    (PostgresGeometryType.new
      "MULTIPOLYGON(((0 0,1 0,1 1,0 1,0 0)))").is_geometry_type = true ∧
    upsert_row_values [AnyValue.str "I", AnyValue.str "2023-10-01T00:00:00Z",
        AnyValue.int64 1,
        AnyValue.str "MULTIPOLYGON(((0 0,1 0,1 1,0 1,0 0)))"] =
      [some "1", some (String.mk (squote ::
        "MULTIPOLYGON(((0 0,1 0,1 1,0 1,0 0)))".data ++ [squote]))] ∧
    String.mk (squote ::
        "MULTIPOLYGON(((0 0,1 0,1 1,0 1,0 0)))".data ++ [squote]) ≠
      "ST_GeomFromText(" ++ String.mk [squote] ++
        "MULTIPOLYGON(((0 0,1 0,1 1,0 1,0 0)))" ++ String.mk [squote] ++
        ", 4326)" := by
  refine ⟨by decide, ?_, by decide⟩
  rfl

/-- Embeds polars DataFrame::drop_in_place at the level of the column-name
list: removing a named column fails when no column of that name exists.
The in-place removal of insert_dataframe_in_target_db
(src/postgres/postgres_operator_impl.rs lines 215-218) unwraps this result
with expect, that is a panic on a missing column. -/
def drop_in_place (cols : List String) (name : String) : Option (List String) :=
  if name ∈ cols then some (cols.erase name) else none

/-- Embeds the column-list preparation of insert_dataframe_in_target_db
(src/postgres/postgres_operator_impl.rs lines 207-221): drop the Op column
and then the _dms_ingestion_timestamp column, each with expect, and keep
the remaining column names in their order for the INSERT fields fragment. -/
def insert_dataframe_column_list (cols : List String) : Option (List String) :=
  match drop_in_place cols "Op" with
  | none => none
  | some c1 =>
    match drop_in_place c1 "_dms_ingestion_timestamp" with
    | none => none
    | some c2 => some c2

/-- Joins string fragments with a separator, as Rust slice join does. -/
def joinSep (sep : String) : List String → String
| [] => ""
| [x] => x
| x :: xs => x ++ sep ++ joinSep sep xs

/-- The fields fragment of the generated INSERT statement
(src/postgres/postgres_operator_impl.rs lines 220-221). -/
def insert_dataframe_fields (cols : List String) : Option String :=
  (insert_dataframe_column_list cols).map (joinSep ", ")

/-- C3 (amended): for every Load batch that contains both DMS metadata
columns, the column list generated for the INSERT statement contains
neither Op nor the ingestion-timestamp column.  When either metadata column
is absent from the batch the operation panics instead of succeeding. -/
theorem c3_metadata_stripping (cols : List String) (h1 : cols.Nodup)
    (h2 : "Op" ∈ cols) (h3 : "_dms_ingestion_timestamp" ∈ cols) :
    ∃ r, insert_dataframe_column_list cols = some r ∧
      "Op" ∉ r ∧ "_dms_ingestion_timestamp" ∉ r := by
  have e1 : drop_in_place cols "Op" = some (cols.erase "Op") := by
    unfold drop_in_place
    rw [if_pos h2]
  have hts : "_dms_ingestion_timestamp" ∈ cols.erase "Op" :=
    (List.mem_erase_of_ne (by decide)).mpr h3
  have e2 : drop_in_place (cols.erase "Op") "_dms_ingestion_timestamp" =
      some ((cols.erase "Op").erase "_dms_ingestion_timestamp") := by
    unfold drop_in_place
    rw [if_pos hts]
  refine ⟨(cols.erase "Op").erase "_dms_ingestion_timestamp", ?_, ?_, ?_⟩
  · unfold insert_dataframe_column_list
    rw [e1]
    show (match drop_in_place (cols.erase "Op") "_dms_ingestion_timestamp" with
      | none => none
      | some c2 => some c2) =
      some ((cols.erase "Op").erase "_dms_ingestion_timestamp")
    rw [e2]
  · intro hmem
    have hop : "Op" ∈ cols.erase "Op" := List.mem_of_mem_erase hmem
    have := (h1.mem_erase_iff.mp hop).1
    exact this rfl
  · intro hmem
    have := ((h1.erase "Op").mem_erase_iff.mp hmem).1
    exact this rfl

/-- Witness for the amended C3 theorem at a concrete batch holding both
metadata columns and one data column. -/
theorem c3_metadata_stripping_witness :
    ∃ r, insert_dataframe_column_list
        ["Op", "_dms_ingestion_timestamp", "id"] = some r ∧
      "Op" ∉ r ∧ "_dms_ingestion_timestamp" ∉ r :=
  c3_metadata_stripping _ (by decide) (by decide) (by decide)

/-- C3 (counterexample): on a batch from which the metadata columns are
absent the bulk-insert panics (the drop of the Op column fails) instead of
succeeding as the claim states. -/
theorem c3_counterexample : insert_dataframe_column_list ["id"] = none := rfl

/-- Embeds the UpsertDataframePayload struct
(src/postgres/postgres_operator.rs lines 16-21); primary_key is the
comma-joined list of primary-key column names built by the caller
(src/cdc/cdc_operator.rs line 204). -/
structure UpsertDataframePayload where
  database_name : String
  schema_name : String
  table_name : String
  primary_key : String
deriving DecidableEq, Repr

/-- Splits a character list at every occurrence of the separator, keeping
empty segments, with the Rust str split semantics for a character pattern. -/
def splitChars (sep : Char) : List Char → List (List Char)
| [] => [[]]
| c :: rest =>
  let r := splitChars sep rest
  if c == sep then [] :: r
  else
    match r with
    | [] => [[c]]
    | h :: t => (c :: h) :: t

/-- Models the Rust split of a string at every comma. -/
def splitOnComma (s : String) : List String :=
  (splitChars (Char.ofNat 44) s.data).map String.mk

/-- Lookup of one cell by column name, as df.column(key).get(row) does for
a single row embedded as an association list in column order. -/
def columnValue (row : List (String × AnyValue)) (key : String) :
    Option AnyValue :=
  (row.find? (fun p => p.1 == key)).map (fun p => p.2)

/-- Embeds the primary-key vector of the upsert loop
(src/postgres/postgres_operator_impl.rs lines 328-332): split the
comma-joined primary-key names, look each up in the row and render the cell
with to_string; a missing column is a panic, hence the Option. -/
def pkVector (row : List (String × AnyValue)) (primary_key : String) :
    Option (List String) :=
  (splitOnComma primary_key).mapM
    (fun key => (columnValue row key).map anyValueToString)

/-- Embeds the delete detection of the upsert loop
(src/postgres/postgres_operator_impl.rs lines 334-347): some column is
named Op and its rendered value contains the character D. -/
def hasOpD (row : List (String × AnyValue)) : Bool :=
  row.any (fun p =>
    p.1 == "Op" && (anyValueToString p.2).data.any (fun c => c == Char.ofNat 68))

/-- Modelled from the spec: the four-argument DeleteRows display arm used
by upsert_dataframe_in_target_db is missing from the sources under src
(the table_query.rs file present defines an older three-argument variant
that does not match the call at src/postgres/postgres_operator_impl.rs
lines 349-354).  Per the spec the rendered statement is DELETE FROM
schema.table WHERE followed by the comma-joined primary-key names, an
equals sign, and the comma-joined primary-key values inside one pair of
single quotes. -/
def delete_rows_query (schema_name table_name primary_key pk_value : String) :
    String :=
  "DELETE FROM " ++ schema_name ++ "." ++ table_name ++ " WHERE " ++
    primary_key ++ " = " ++ String.mk [squote] ++ pk_value ++ String.mk [squote]

/-- Embeds the replace of every double quote by a single quote applied to
the rendered delete statement (src/postgres/postgres_operator_impl.rs
line 357). -/
def replaceDq (s : String) : String :=
  String.mk (s.data.map (fun c => if c = dquote then squote else c))

/-- Embeds the delete branch of upsert_dataframe_in_target_db
(src/postgres/postgres_operator_impl.rs lines 324-369): compute the
primary-key vector of the row, and when some Op cell renders with a D issue
the delete statement with every double quote replaced by a single quote. -/
def upsert_delete_query (payload : UpsertDataframePayload)
    (row : List (String × AnyValue)) : Option String :=
  match pkVector row payload.primary_key with
  | none => none
  | some vals =>
    if hasOpD row then
      some (replaceDq (delete_rows_query payload.schema_name
        payload.table_name payload.primary_key (joinSep "," vals)))
    else none

theorem replaceDq_append (a b : String) :
    replaceDq (a ++ b) = replaceDq a ++ replaceDq b := by
  cases a with
  | mk x =>
    cases b with
    | mk y => exact congrArg String.mk (List.map_append _ x y)

theorem replaceDq_of_no_dq (s : String) (h : dquote ∉ s.data) :
    replaceDq s = s := by
  cases s with
  | mk l =>
    refine congrArg String.mk ?_
    induction l with
    | nil => rfl
    | cons a t ih =>
      have ha : a ≠ dquote := fun hc => h (by simp [hc])
      simp only [List.map_cons, if_neg ha]
      rw [ih (fun hc => h (by simp [hc]))]

theorem replaceDq_joinSep (vals : List String) :
    replaceDq (joinSep "," vals) = joinSep "," (vals.map replaceDq) := by
  induction vals with
  | nil => rfl
  | cons x xs ih =>
    cases xs with
    | nil => rfl
    | cons y ys =>
      show replaceDq (x ++ "," ++ joinSep "," (y :: ys)) =
        replaceDq x ++ "," ++ joinSep "," ((y :: ys).map replaceDq)
      rw [replaceDq_append, replaceDq_append, ih]
      rw [show replaceDq "," = "," from rfl]

/-- C4: for every CDC row whose Op cell renders with a D, the issued DELETE
statement has a WHERE predicate that is one single equality: the
comma-joined primary-key column names on the left and the comma-joined
rendered primary-key values inside one single-quoted literal on the right,
with every double quote of the rendered values replaced by a single quote.
The same concatenated form is produced for composite primary keys. -/
theorem c4_delete_predicate (payload : UpsertDataframePayload)
    (row : List (String × AnyValue)) (vals : List String)
    (hpk : pkVector row payload.primary_key = some vals)
    (hop : hasOpD row = true)
    (hs : dquote ∉ payload.schema_name.data)
    (ht : dquote ∉ payload.table_name.data)
    (hp : dquote ∉ payload.primary_key.data) :
    upsert_delete_query payload row =
      some ("DELETE FROM " ++ payload.schema_name ++ "." ++
        payload.table_name ++ " WHERE " ++ payload.primary_key ++ " = " ++
        String.mk [squote] ++ joinSep "," (vals.map replaceDq) ++
        String.mk [squote]) := by
  unfold upsert_delete_query
  rw [hpk]
  show (if hasOpD row = true then
      some (replaceDq (delete_rows_query payload.schema_name
        payload.table_name payload.primary_key (joinSep "," vals)))
    else none) = _
  rw [if_pos hop]
  unfold delete_rows_query
  simp only [replaceDq_append]
  rw [replaceDq_joinSep, replaceDq_of_no_dq _ hs, replaceDq_of_no_dq _ ht,
    replaceDq_of_no_dq _ hp]
  rw [show replaceDq "DELETE FROM " = "DELETE FROM " from rfl,
    show replaceDq "." = "." from rfl,
    show replaceDq " WHERE " = " WHERE " from rfl,
    show replaceDq " = " = " = " from rfl,
    show replaceDq (String.mk [squote]) = String.mk [squote] from rfl]

/-- Witness for C4 at a composite two-column primary key: the generated
predicate is the defective concatenated equality and not a tuple
comparison. -/
theorem c4_delete_predicate_witness :
    upsert_delete_query
      (UpsertDataframePayload.mk "mydb" "public" "t" "id,name")
      [("Op", AnyValue.str "D"),
       ("_dms_ingestion_timestamp", AnyValue.str "2023-10-01 00:00:00"),
       ("id", AnyValue.int64 7), ("name", AnyValue.str "ab")] =
      some ("DELETE FROM " ++ "public" ++ "." ++ "t" ++ " WHERE " ++
        "id,name" ++ " = " ++ String.mk [squote] ++
        joinSep ","
          (["7", String.mk (dquote :: "ab".data ++ [dquote])].map replaceDq) ++
        String.mk [squote]) :=
  c4_delete_predicate _ _ _ (by rfl) (by rfl) (by decide) (by decide)
    (by decide)

/-- Error type of the database layer, carrying a message. -/
inductive PgError where
| mk (msg : String)
deriving DecidableEq, Repr

/-- Embeds get_primary_key (src/postgres/postgres_operator_impl.rs
lines 91-109): acquiring a pooled connection propagates failure with the
question-mark operator, but the catalog query result is taken with
unwrap_or of the empty vector, so a query failure becomes an empty row set;
the attname of each row is collected and the list returned with Ok. -/
def get_primary_key (poolGet : Except PgError Unit)
    (queryResult : Except PgError (List String)) :
    Except PgError (List String) :=
  match poolGet with
  | .error e => .error e
  | .ok _ =>
    let rows := match queryResult with
      | .ok r => r
      | .error _ => []
    .ok rows

/-- C10: when the primary-key catalog query fails, get_primary_key does not
propagate the error: it substitutes an empty row set and returns Ok with an
empty list, indistinguishable from a table that has no primary key. -/
theorem c10_pk_error_swallowed (e : PgError) :
    get_primary_key (.ok ()) (.error e) = .ok ([] : List String) ∧
    get_primary_key (.ok ()) (.error e) = get_primary_key (.ok ()) (.ok []) :=
  ⟨rfl, rfl⟩

end DmsCdc
